import Mathlib

/-!
Verification development for the tmerelay messaging gateway.

The TypeScript sources are shallowly embedded: JS strings become `List Char`,
fallible operations become `Except`, backend calls become environment
parameters, and the network operations a code path performs are recorded in an
explicit trace list.
-/

/-- Model of a JavaScript string: its list of characters. -/
abbrev JStr := List Char

/-- Characters removed by `String.prototype.trim` (ASCII whitespace model),
identified by code point: space, tab, line feed, form feed, carriage return. -/
def jsWhitespace (c : Char) : Bool :=
  c.toNat = 32 || c.toNat = 9 || c.toNat = 10 || c.toNat = 12 || c.toNat = 13

/-- Lower-case every character, modelling `toLowerCase` (the core ASCII
`Char.toLower` is exactly the model for the basic-latin inputs involved). -/
def jsLower (l : JStr) : JStr := l.map Char.toLower

/-- Remove trailing whitespace (right half of `trim`). -/
def trimRight : JStr → JStr
  | [] => []
  | c :: cs =>
    match trimRight cs with
    | [] => if jsWhitespace c then [] else [c]
    | r => c :: r

/-- Model of `String.prototype.trim`. -/
def jsTrim (l : JStr) : JStr := trimRight (l.dropWhile jsWhitespace)

/-- The literal "whatsapp:" tag (source constant used by the utils). -/
def waTag : JStr := "whatsapp:".toList

/-- The literal "telegram:" tag (source constant TELEGRAM_PREFIX in utils.ts). -/
def telegramTag : JStr := "telegram:".toList

/-- The literal "@s.whatsapp.net" JID suffix. -/
def waSuffix : JStr := "@s.whatsapp.net".toList

/-- The literal "@lid" JID suffix. -/
def lidSuffix : JStr := "@lid".toList

/-- The literal "@g.us" group JID suffix. -/
def gUsSuffix : JStr := "@g.us".toList

/-- Model of utils.ts stripWhatsAppPrefix: `number.replace(/^whatsapp:/, "")`. -/
def stripWhatsAppTag (l : JStr) : JStr :=
  if waTag.isPrefixOf l then l.drop waTag.length else l

/-- Model of utils.ts withWhatsAppPrefix:
`number.startsWith("whatsapp:") ? number : "whatsapp:" + number`. -/
def withWhatsAppTag (number : JStr) : JStr :=
  if waTag.isPrefixOf number then number else waTag ++ number

/-- Character class of the regex `[\d+]` used by normalizeE164. -/
def isE164Char (c : Char) : Bool := c.isDigit || c == '+'

/-- Drop one leading plus sign, if present. -/
def dropLeadingPlus : JStr → JStr
  | '+' :: rest => rest
  | l => l

/-- Model of utils.ts normalizeE164: strip the `whatsapp:` tag, trim, keep only
digits and plus signs, then force exactly one leading `+`
(`digits.startsWith("+") ? "+"+digits.slice(1) : "+"+digits`). -/
def normalizeE164 (number : JStr) : JStr :=
  let withoutTag := jsTrim (stripWhatsAppTag number)
  let digits := withoutTag.filter isE164Char
  '+' :: dropLeadingPlus digits

/-- Model of utils.ts toWhatsappJid: `normalizeE164(number).replace(/\D/g,"")
+ "@s.whatsapp.net"`. -/
def toWhatsappJid (number : JStr) : JStr :=
  (normalizeE164 number).filter (fun c => c.isDigit) ++ waSuffix

/-- Deterministic matcher for the anchored regex `^(\d+)(?::\d+)?<suffix>$`
used by jidToE164 (the optional `:<digits>` part is a device suffix). -/
def matchDigitsThen (suffix : JStr) (l : JStr) : Option JStr :=
  let ds := l.takeWhile Char.isDigit
  let rest := l.dropWhile Char.isDigit
  if ds.isEmpty then none
  else if rest = suffix then some ds
  else
    match rest with
    | ':' :: r2 =>
      let ds2 := r2.takeWhile Char.isDigit
      let r3 := r2.dropWhile Char.isDigit
      if ds2.isEmpty then none
      else if r3 = suffix then some ds else none
    | _ => none

/-- Model of utils.ts jidToE164. The on-disk `lid-mapping-<id>_reverse.json`
lookup (file read plus JSON parse, with the catch falling through to null) is
abstracted as the `lidLookup` parameter; a falsy parsed phone also yields
null. -/
def jidToE164 (lidLookup : JStr → Option JStr) (jid : JStr) : Option JStr :=
  match matchDigitsThen waSuffix jid with
  | some digits => some ('+' :: digits)
  | none =>
    match matchDigitsThen lidSuffix jid with
    | some lid =>
      match lidLookup lid with
      | some phone => if phone.isEmpty then none else some ('+' :: phone)
      | none => none
    | none => none

/-- Provider tags accepted by normalizeAllowFromEntry in utils.ts. -/
inductive AllowFromProvider
  | telegram | web | twilio
deriving DecidableEq

/-- Test for the anchored regex `^\d+$` (nonempty all-digits). -/
def isNumericId (l : JStr) : Bool := !l.isEmpty && l.all Char.isDigit

/-- The `withoutPrefix` local step of normalizeAllowFromEntry's telegram
branch: strip an optional `telegram:` tag. -/
def tgWithoutTag (trimmed : JStr) : JStr :=
  if telegramTag.isPrefixOf trimmed then trimmed.drop telegramTag.length
  else trimmed

/-- The `username` local step of the telegram branch: keep `@`-entries and
numeric ids as they are, otherwise prepend `@`. -/
def tgUsername (withoutTag : JStr) : JStr :=
  if withoutTag.head? = some '@' then withoutTag
  else if isNumericId withoutTag then withoutTag
  else '@' :: withoutTag

/-- Model of utils.ts normalizeAllowFromEntry: trim and lower-case; empty
input maps to empty output; for telegram strip an optional `telegram:` tag,
ensure `@username` form unless the entry is a numeric id, and re-attach the
tag; for WhatsApp providers return `normalizeE164(entry)` (the original,
untrimmed entry, as in the source). -/
def normalizeAllowFromEntry (entry : JStr) (provider : AllowFromProvider) : JStr :=
  let trimmed := jsLower (jsTrim entry)
  if trimmed.isEmpty then []
  else
    match provider with
    | .telegram => telegramTag ++ tgUsername (tgWithoutTag trimmed)
    | _ => normalizeE164 entry

/-- Session scope values from the configuration (`global` or `per-sender`). -/
inductive SessionScope
  | globalScope | perSender
deriving DecidableEq

/-- Matcher for the wa-web group JID shape `<digits>-<digits>@g.us`. -/
def matchGroupJid (l : JStr) : Bool :=
  let d1 := l.takeWhile Char.isDigit
  let r1 := l.dropWhile Char.isDigit
  if d1.isEmpty then false
  else
    match r1 with
    | '-' :: r2 =>
      let d2 := r2.takeWhile Char.isDigit
      let r3 := r2.dropWhile Char.isDigit
      !d2.isEmpty && r3 = gUsSuffix
    | _ => false

/-- Modelled from the spec: the implementation of `deriveSessionKey` is not
under src/ (only its test file src/config/sessions.test.ts is), so this
definition follows the session-key table of spec section 4.7: scope `global`
maps every sender to "global"; with scope `per-sender` an absent or empty
sender maps to "unknown", a `<digits>-<digits>@g.us` group JID is prefixed
with "group:", a `telegram:`-tagged sender is kept unchanged, and any other
sender is normalised to E.164. -/
def deriveSessionKey (scope : SessionScope) (sender : Option JStr) : JStr :=
  match scope with
  | .globalScope => "global".toList
  | .perSender =>
    match sender with
    | none => "unknown".toList
    | some s =>
      if s.isEmpty then "unknown".toList
      else if matchGroupJid s then "group:".toList ++ s
      else if telegramTag.isPrefixOf s then s
      else normalizeE164 s

/-- Digit list to number, most significant first. -/
def digitsToNat (l : JStr) : Nat :=
  l.foldl (fun acc c => acc * 10 + (c.toNat - 48)) 0

/-- Model of JavaScript `Number.parseInt(s, 10)`: skip leading whitespace,
take an optional sign and then a nonempty run of decimal digits; `none`
stands for NaN. -/
def parseIntJS (s : JStr) : Option Int :=
  let t := s.dropWhile jsWhitespace
  let signAndRest : Int × JStr :=
    match t with
    | '+' :: r => (1, r)
    | '-' :: r => (-1, r)
    | _ => (1, t)
  let ds := signAndRest.2.takeWhile Char.isDigit
  if ds.isEmpty then none
  else some (signAndRest.1 * (digitsToNat ds : Int))

/-- The 2 GiB default from telegram/capabilities.ts (`2 * 1024 * 1024 * 1024`). -/
def defaultMaxMediaBytes : Nat := 2 * 1024 * 1024 * 1024

/-- Model of telegram/capabilities.ts getMaxMediaSize. The argument is the
value of the TELEGRAM_MAX_MEDIA_MB environment variable (`none` = unset); the
second component records whether `console.warn` was invoked. The JS guard
`if (envOverride)` treats an empty string like an unset variable. -/
def getMaxMediaSize (env : Option JStr) : Nat × Bool :=
  match env with
  | none => (defaultMaxMediaBytes, false)
  | some envOverride =>
    if envOverride.isEmpty then (defaultMaxMediaBytes, false)
    else
      match parseIntJS envOverride with
      | none => (defaultMaxMediaBytes, true)
      | some overrideMB =>
        if overrideMB ≤ 0 then (defaultMaxMediaBytes, true)
        else
          let overrideBytes := overrideMB.toNat * 1024 * 1024
          if overrideBytes > defaultMaxMediaBytes then (defaultMaxMediaBytes, true)
          else (overrideBytes, false)

/-- The wa-twilio capability constant `maxMediaSize: 5 * 1024 * 1024`. -/
def twilioMaxMediaSize : Nat := 5 * 1024 * 1024

/-- The wa-web capability constant `maxMediaSize: 64 * 1024 * 1024`. -/
def webMaxMediaSize : Nat := 64 * 1024 * 1024

/-- Media type tags of ProviderMedia (providers/base/types.ts). -/
inductive MediaType
  | image | video | audio | voice | document
deriving DecidableEq

/-- Model of ProviderMedia (providers/base/types.ts): exactly the fields the
send paths consult; a buffer is a byte list. -/
structure ProviderMedia where
  mtype : MediaType
  buffer : Option (List Nat) := none
  url : Option JStr := none
  size : Option Nat := none
  fileName : Option JStr := none
  mimeType : Option JStr := none
deriving DecidableEq

/-- SendResult status values (providers/base/types.ts). -/
inductive SendStatus
  | sent | queued | failed
deriving DecidableEq

/-- Model of SendResult (messageId, status, optional error). -/
structure SendResult where
  messageId : JStr
  status : SendStatus
  error : Option JStr := none
deriving DecidableEq

/-- Network operations a send path can perform, recorded as a trace. -/
inductive NetOp
  | resolveEntity (toAddr : JStr)
  | httpGet (url : JStr)
  | httpHead (url : JStr)
  | backendSend
deriving DecidableEq

/-- Decimal rendering of a natural number (model of `Number.prototype.toString`). -/
def natToStr (n : Nat) : JStr := (toString n).toList

/-- Decimal rendering of an integer (model of template interpolation of a
JS number). -/
def intToStr (i : Int) : JStr := (toString i).toList

/-- Message parameters built by TwilioProvider.send for `messages.create`. -/
structure TwilioMessageParams where
  fromNumber : Option JStr := none
  messagingServiceSid : Option JStr := none
  toAddr : JStr
  body : JStr
  mediaUrl : Option (List JStr) := none
deriving DecidableEq

/-- The slice of TwilioProviderConfig consulted by send. -/
structure TwilioConfig where
  whatsappFrom : JStr
  messagingServiceSid : Option JStr := none
deriving DecidableEq

/-- Model of the parameter-building part of TwilioProvider.send
(src/unnamed/part_003 lines 110-140): prefix the numbers with `whatsapp:`,
prefer the messaging-service SID from options over the config one, make
`from` and `messagingServiceSid` mutually exclusive, and attach the first
media URL if present. -/
def twilioBuildParams (config : TwilioConfig) (optMsSid : Option JStr)
    (toAddr body : JStr) (media : List ProviderMedia) : TwilioMessageParams :=
  let fromNumber := withWhatsAppTag config.whatsappFrom
  let toNumber := withWhatsAppTag toAddr
  let msSid := optMsSid.orElse (fun _ => config.messagingServiceSid)
  let base : TwilioMessageParams :=
    match msSid with
    | some sid => { toAddr := toNumber, body := body, messagingServiceSid := some sid }
    | none => { toAddr := toNumber, body := body, fromNumber := some fromNumber }
  match media.head? with
  | some m =>
    match m.url with
    | some u => { base with mediaUrl := some [u] }
    | none => base
  | none => base

/-- Model of TwilioProvider.send (src/unnamed/part_003 lines 101-159).
`initialized` stands for `this.client && this.config`; `backend` is the
outcome of `client.messages.create` for the built params (`Except.error` is a
thrown exception, caught by the source's try/catch). The trace records that a
backend send call was attempted. The declared media size is never consulted. -/
def twilioSend (initialized : Bool) (config : TwilioConfig)
    (backend : TwilioMessageParams → Except JStr JStr) (optMsSid : Option JStr)
    (toAddr body : JStr) (media : List ProviderMedia) :
    Except JStr SendResult × List NetOp :=
  if !initialized then (.error "Provider not initialized".toList, [])
  else
    let params := twilioBuildParams config optMsSid toAddr body media
    match backend params with
    | .ok sid => (.ok { messageId := sid, status := .sent }, [.backendSend])
    | .error e =>
      (.ok { messageId := [], status := .failed, error := some e }, [.backendSend])

/-- Model of an HTTP response as seen by telegram/outbound.ts (`fetch`). -/
structure FetchResp where
  ok : Bool
  statusText : JStr := []
  bytes : List Nat := []
deriving DecidableEq

/-- Environment of the Telegram send paths: outcome of entity resolution, of
`fetch(url)` (an `Except.error` is a network-level throw), and of the
`client.sendFile` / `client.sendMessage` backend calls. -/
structure TgEnv where
  resolve : JStr → Except JStr Nat
  fetch : JStr → Except JStr FetchResp
  sendFile : Except JStr Nat
  sendMessage : Except JStr Nat

/-- The error text `Failed to download media from <url>: <statusText>`. -/
def failedDownloadMsg (url statusText : JStr) : JStr :=
  "Failed to download media from ".toList ++ url ++ ": ".toList ++ statusText

/-- Model of telegram/outbound.ts sendMediaMessage (src/src/telegram/outbound.ts
lines 38-125): resolve the entity, use the buffer if present, otherwise fetch
the URL fully into memory (throwing on a non-ok response), then call
`client.sendFile` (all four media-type branches call sendFile; their extra
attributes are backend arguments opaque to this model). No size check is
performed anywhere on this path. Errors propagate as exceptions. -/
def tgSendMediaMessage (env : TgEnv) (toAddr _body : JStr) (media : ProviderMedia) :
    Except JStr SendResult × List NetOp :=
  match env.resolve toAddr with
  | .error e => (.error e, [.resolveEntity toAddr])
  | .ok _entity =>
    let sendPart (ops : List NetOp) : Except JStr SendResult × List NetOp :=
      match env.sendFile with
      | .ok i => (.ok { messageId := natToStr i, status := .sent }, ops ++ [.backendSend])
      | .error e => (.error e, ops ++ [.backendSend])
    match media.buffer with
    | some _b => sendPart [.resolveEntity toAddr]
    | none =>
      match media.url with
      | some u =>
        match env.fetch u with
        | .error e => (.error e, [.resolveEntity toAddr, .httpGet u])
        | .ok resp =>
          if !resp.ok then
            (.error (failedDownloadMsg u resp.statusText), [.resolveEntity toAddr, .httpGet u])
          else sendPart [.resolveEntity toAddr, .httpGet u]
      | none =>
        (.error "Media must have either buffer or url".toList, [.resolveEntity toAddr])

/-- Model of telegram/outbound.ts sendTextMessage: resolve the entity, then
call `client.sendMessage`; errors propagate as exceptions. -/
def tgSendTextMessage (env : TgEnv) (toAddr _body : JStr) :
    Except JStr SendResult × List NetOp :=
  match env.resolve toAddr with
  | .error e => (.error e, [.resolveEntity toAddr])
  | .ok _entity =>
    match env.sendMessage with
    | .ok i => (.ok { messageId := natToStr i, status := .sent }, [.resolveEntity toAddr, .backendSend])
    | .error e => (.error e, [.resolveEntity toAddr, .backendSend])

/-- Model of TelegramProvider.send (src/unnamed/part_006 lines 285-302): throw
when the client is absent, then delegate to sendMediaMessage on the first
media attachment or to sendTextMessage; there is no try/catch, so any failure
of the delegates propagates. -/
def telegramSend (hasClient : Bool) (env : TgEnv) (toAddr body : JStr)
    (media : List ProviderMedia) : Except JStr SendResult × List NetOp :=
  if !hasClient then (.error "Provider not initialized".toList, [])
  else
    match media with
    | m :: _ => tgSendMediaMessage env toAddr body m
    | [] => tgSendTextMessage env toAddr body

/-- Model of TelegramProvider.sendTyping (src/unnamed/part_006 lines 304-310)
plus telegram/outbound.ts sendTypingIndicator: throw when uninitialized,
then resolve the entity and invoke SetTyping, with no catch anywhere. -/
def telegramSendTyping (hasClient : Bool) (resolve : Except JStr Nat)
    (invoke : Except JStr Unit) : Except JStr Unit :=
  if !hasClient then .error "Provider not initialized".toList
  else
    match resolve with
    | .error e => .error e
    | .ok _entity => invoke

/-- Model of WebProvider.send (src/src/providers/wa-web/provider.ts lines
97-127): throw when uninitialized; otherwise delegate to sendMessageWeb
(external, its outcome is the `backend` parameter carrying messageId and
toJid) and shape any thrown error into a failed SendResult. -/
def webSend (initialized : Bool) (backend : Except JStr (JStr × JStr)) :
    Except JStr SendResult :=
  if !initialized then .error "Provider not initialized".toList
  else
    match backend with
    | .ok r => .ok { messageId := r.1, status := .sent }
    | .error e => .ok { messageId := [], status := .failed, error := some e }

/-- Model of WebProvider.sendTyping (src/src/providers/wa-web/provider.ts
lines 129-143): throw when the socket is absent, then send the presence
update inside a try/catch that swallows every error (logging when verbose). -/
def webSendTyping (hasSocket : Bool) (presence : Except JStr Unit) :
    Except JStr Unit :=
  if !hasSocket then .error "Provider not initialized".toList
  else
    match presence with
    | .ok _u => .ok ()
    | .error _e => .ok ()

/-- Model of TwilioProvider.sendTyping (src/unnamed/part_003 lines 161-164):
an unconditional no-op. -/
def twilioSendTyping (_to : JStr) : Except JStr Unit := .ok ()

/-- Model of the precondition checks of TwilioProvider.startListening
(src/unnamed/part_003 lines 219-231). -/
def twilioStartListening (hasConfig hasHandler listening : Bool) :
    Except JStr Unit :=
  if !hasConfig then .error "Provider not initialized".toList
  else if !hasHandler then
    .error "Message handler not set. Call onMessage() first.".toList
  else if listening then .error "Already listening".toList
  else .ok ()

/-- Model of the precondition checks of WebProvider.startListening
(src/src/providers/wa-web/provider.ts lines 163-175). -/
def webStartListening (hasConfig hasHandler listening : Bool) :
    Except JStr Unit :=
  if !hasConfig then .error "Provider not initialized".toList
  else if !hasHandler then
    .error "Message handler not set. Call onMessage() first.".toList
  else if listening then .error "Already listening".toList
  else .ok ()

/-- Model of the precondition checks of TelegramProvider.startListening
(src/unnamed/part_006 lines 326-342): client and handler are checked, but the
current listening state (`cleanupListener`) is never consulted. -/
def telegramStartListening (hasClient hasHandler _listening : Bool) :
    Except JStr Unit :=
  if !hasClient then .error "Provider not initialized".toList
  else if !hasHandler then
    .error "No message handler registered. Call onMessage() first.".toList
  else .ok ()

/-- Normalized delivery states (providers/base/types.ts DeliveryStatus). -/
inductive DeliveryState
  | sent | delivered | read | failed | unknown
deriving DecidableEq

/-- Model of the DeliveryStatus record returned by getDeliveryStatus. -/
structure DeliveryStatus where
  messageId : JStr
  status : DeliveryState
  timestamp : Nat
  error : Option JStr := none
  providerStatusCode : Option JStr := none
deriving DecidableEq

/-- The fields of the backend message fetched by
TwilioProvider.getDeliveryStatus (`client.messages(id).fetch()`);
`dateUpdated` is the epoch-milliseconds value of `dateUpdated?.getTime()`. -/
structure TwilioFetchedMessage where
  status : Option JStr := none
  errorCode : Option Int := none
  errorMessage : Option JStr := none
  dateUpdated : Option Nat := none
deriving DecidableEq

/-- Model of the status mapping inside TwilioProvider.getDeliveryStatus
(src/unnamed/part_003 lines 175-189): `delivered` and `sent` map to
delivered, `read` to read, `failed`/`undelivered`/`canceled` to failed, and
everything else (queued, sending, ...) to sent. -/
def normalizeTwilioStatus (s : JStr) : DeliveryState :=
  if s = "delivered".toList ∨ s = "sent".toList then .delivered
  else if s = "read".toList then .read
  else if s = "failed".toList ∨ s = "undelivered".toList ∨ s = "canceled".toList then
    .failed
  else .sent

/-- Model of TwilioProvider.getDeliveryStatus (src/unnamed/part_003 lines
166-209): throw when uninitialized; on a successful backend fetch, default a
missing status string to "unknown", normalise it, surface
`"<errorCode>: <errorMessage or Unknown error>"` when an error code is
present, and fall back to `Date.now()` (the `nowMs` parameter) when
`dateUpdated` is missing; a thrown fetch is caught and shaped into an
`unknown` status carrying the error message. -/
def twilioGetDeliveryStatus (hasClient : Bool)
    (fetched : Except JStr TwilioFetchedMessage) (messageId : JStr)
    (nowMs : Nat) : Except JStr DeliveryStatus :=
  if !hasClient then .error "Provider not initialized".toList
  else
    match fetched with
    | .ok m =>
      let status := m.status.getD "unknown".toList
      .ok { messageId := messageId
            status := normalizeTwilioStatus status
            timestamp := m.dateUpdated.getD nowMs
            error :=
              match m.errorCode with
              | some c =>
                some (intToStr c ++ ": ".toList ++
                  m.errorMessage.getD "Unknown error".toList)
              | none => none
            providerStatusCode := some status }
    | .error e =>
      .ok { messageId := messageId, status := .unknown, timestamp := nowMs,
            error := some e }

/-- The fields of a Twilio ListedMessage consulted by the polling loop;
`dateCreated` is epoch milliseconds (`dateCreated?.getTime() ?? 0`). -/
structure ListedMessage where
  sid : Option JStr := none
  direction : JStr
  dateCreated : Option Int := none
deriving DecidableEq

/-- Sort key of a message: `dateCreated?.getTime() ?? 0`. -/
def msgTime (m : ListedMessage) : Int := m.dateCreated.getD 0

/-- Stable insertion into a newest-first list: the new message is placed
before the first strictly-older entry, so equal timestamps keep their
original relative order, as `Array.prototype.sort` guarantees. -/
def insertDesc (m : ListedMessage) : List ListedMessage → List ListedMessage
  | [] => [m]
  | x :: xs => if msgTime x < msgTime m then m :: x :: xs else x :: insertDesc m xs

/-- Stable newest-first sort, modelling
`[...inbound].sort((a, b) => (b.dateCreated ?? 0) - (a.dateCreated ?? 0))`. -/
def sortDesc (l : List ListedMessage) : List ListedMessage :=
  l.foldl (fun acc m => insertDesc m acc) []

/-- JS truthiness of an optional string (undefined and "" are falsy). -/
def optTruthy : Option JStr → Bool
  | some s => !s.isEmpty
  | none => false

/-- The skip test of the polling loop body: `if (!msg.sid) continue;
if (lastSeenSid && msg.sid === lastSeenSid) continue;`. -/
def pollKeep (lastSeenSid : Option JStr) (m : ListedMessage) : Bool :=
  optTruthy m.sid &&
    !(optTruthy lastSeenSid && m.sid == lastSeenSid)

/-- Model of one iteration of the poll closure inside
TwilioProvider.startListening (src/unnamed/part_003 lines 241-279): keep the
inbound messages, sort newest first, iterate in reverse (oldest first)
delivering every message that passes `pollKeep`, then remember the SID of the
newest message when the iteration saw any. Returns the delivered messages in
delivery order together with the new `lastSeenSid`. -/
def pollOnce (lastSeenSid : Option JStr) (messages : List ListedMessage) :
    List ListedMessage × Option JStr :=
  let inbound := messages.filter (fun m => m.direction = "inbound".toList)
  let newestFirst := sortDesc inbound
  let processed := newestFirst.reverse.filter (pollKeep lastSeenSid)
  let newLast :=
    match newestFirst with
    | m :: _ => m.sid
    | [] => lastSeenSid
  (processed, newLast)

/-- The log line `Twilio polling failed: <err>`. -/
def pollErrorLog (e : JStr) : JStr := "Twilio polling failed: ".toList ++ e

/-- Model of the polling loop: each entry of the input list is the outcome of
one `listRecentMessages` call (`Except.error` is a thrown iteration). A
throwing iteration is caught, logged only when verbose, leaves the
remembered SID unchanged, and the loop continues with the next iteration.
Returns all delivered messages in order and the emitted log lines. -/
def pollLoop (verbose : Bool) :
    Option JStr → List (Except JStr (List ListedMessage)) →
    List ListedMessage × List JStr
  | _last, [] => ([], [])
  | last, (.error e) :: rest =>
    let r := pollLoop verbose last rest
    (r.1, (if verbose then [pollErrorLog e] else []) ++ r.2)
  | last, (.ok msgs) :: rest =>
    let step := pollOnce last msgs
    let r := pollLoop verbose step.2 rest
    (step.1 ++ r.1, r.2)

/-- Total byte count of a chunk list. -/
def chunksLen (chunks : List (List Nat)) : Nat :=
  (chunks.map List.length).sum

/-- The error text `Download size <t> exceeds maximum <max> bytes` thrown by
the size-tracking transform. -/
def sizeExceededMsg (t maxSize : Nat) : JStr :=
  "Download size ".toList ++ natToStr t ++ " exceeds maximum ".toList ++
    natToStr maxSize ++ " bytes".toList

/-- Model of the size-tracking Transform stream inside
telegram/download.ts streamDownloadToTemp (lines 121-143): fold over the
response chunks keeping a cumulative byte count, erroring out as soon as the
count exceeds `maxSize` (later chunks are then never consumed); on success
return the total size. -/
def trackingTransform (maxSize : Nat) : Nat → List (List Nat) → Except JStr Nat
  | total, [] => .ok total
  | total, chunk :: rest =>
    let t := total + chunk.length
    if t > maxSize then .error (sizeExceededMsg t maxSize)
    else trackingTransform maxSize t rest

theorem char_toNat_ofNat_valid {n : Nat} (h : n.isValidChar) :
    (Char.ofNat n).toNat = n := by
  unfold Char.ofNat
  rw [dif_pos h]
  simp [Char.ofNatAux, Char.toNat, UInt32.toNat]

theorem toNat_toLower_of_upper {c : Char} (h1 : 65 ≤ c.toNat) (h2 : c.toNat ≤ 90) :
    (Char.toLower c).toNat = c.toNat + 32 := by
  unfold Char.toLower
  rw [if_pos ⟨h1, h2⟩]
  exact char_toNat_ofNat_valid (Or.inl (by omega))

theorem toLower_eq_self_of_not_upper {c : Char}
    (h : ¬(65 ≤ c.toNat ∧ c.toNat ≤ 90)) : Char.toLower c = c := by
  unfold Char.toLower
  rw [if_neg h]

theorem toLower_toLower (c : Char) : Char.toLower (Char.toLower c) = Char.toLower c := by
  by_cases h : 65 ≤ c.toNat ∧ c.toNat ≤ 90
  · have ht : (Char.toLower c).toNat = c.toNat + 32 := toNat_toLower_of_upper h.1 h.2
    exact toLower_eq_self_of_not_upper (by omega)
  · rw [toLower_eq_self_of_not_upper h, toLower_eq_self_of_not_upper h]

theorem jsWhitespace_toLower (c : Char) :
    jsWhitespace (Char.toLower c) = jsWhitespace c := by
  by_cases h : 65 ≤ c.toNat ∧ c.toNat ≤ 90
  · have ht : (Char.toLower c).toNat = c.toNat + 32 := toNat_toLower_of_upper h.1 h.2
    have l : jsWhitespace (Char.toLower c) = false := by
      simp only [jsWhitespace, ht, Bool.or_eq_false_iff, decide_eq_false_iff_not]
      omega
    have r : jsWhitespace c = false := by
      simp only [jsWhitespace, Bool.or_eq_false_iff, decide_eq_false_iff_not]
      omega
    rw [l, r]
  · rw [toLower_eq_self_of_not_upper h]

theorem isDigit_iff_toNat {c : Char} :
    c.isDigit = true ↔ 48 ≤ c.toNat ∧ c.toNat ≤ 57 := by
  simp [Char.isDigit, UInt32.le_def, BitVec.le_def, Char.toNat, UInt32.toNat, ge_iff_le]

theorem toLower_of_isDigit {c : Char} (h : c.isDigit = true) : Char.toLower c = c := by
  have := isDigit_iff_toNat.mp h
  exact toLower_eq_self_of_not_upper (by omega)


theorem not_ws_of_e164 {c : Char} (h : isE164Char c = true) : jsWhitespace c = false := by
  simp only [isE164Char, Bool.or_eq_true, beq_iff_eq] at h
  rcases h with h | h
  · have hd := isDigit_iff_toNat.mp h
    simp only [jsWhitespace, Bool.or_eq_false_iff, decide_eq_false_iff_not]
    omega
  · subst h
    decide

theorem e164_of_isDigit {c : Char} (h : c.isDigit = true) : isE164Char c = true := by
  simp [isE164Char, h]

theorem trimRight_getLast_not_ws (l : JStr) :
    ∀ c, (trimRight l).getLast? = some c → jsWhitespace c = false := by
  induction l with
  | nil => intro c hc; simp [trimRight] at hc
  | cons a as ih =>
    intro c hc
    unfold trimRight at hc
    cases h : trimRight as with
    | nil =>
      rw [h] at hc
      by_cases hw : jsWhitespace a = true
      · simp [hw] at hc
      · simp [hw] at hc
        subst hc
        simpa using hw
    | cons x xs =>
      rw [h] at hc
      simp only [List.getLast?_cons_cons] at hc
      exact ih c (by rw [h]; exact hc)

theorem trimRight_eq_self (l : JStr)
    (h : ∀ c, l.getLast? = some c → jsWhitespace c = false) : trimRight l = l := by
  induction l with
  | nil => rfl
  | cons a as ih =>
    cases as with
    | nil =>
      have ha : jsWhitespace a = false := h a rfl
      simp [trimRight, ha]
    | cons b bs =>
      have hsub : trimRight (b :: bs) = b :: bs := by
        apply ih
        intro c hc
        exact h c (by simpa [List.getLast?_cons_cons] using hc)
      unfold trimRight
      rw [hsub]

theorem dropWhile_eq_self_of_head (l : JStr)
    (h : ∀ c, l.head? = some c → jsWhitespace c = false) :
    l.dropWhile jsWhitespace = l := by
  cases l with
  | nil => rfl
  | cons a as =>
    have ha : jsWhitespace a = false := h a rfl
    simp [List.dropWhile_cons, ha]

theorem jsTrim_eq_self (l : JStr)
    (hh : ∀ c, l.head? = some c → jsWhitespace c = false)
    (hl : ∀ c, l.getLast? = some c → jsWhitespace c = false) : jsTrim l = l := by
  unfold jsTrim
  rw [dropWhile_eq_self_of_head l hh]
  exact trimRight_eq_self l hl

theorem jsTrim_eq_self_of_all (l : JStr)
    (h : ∀ c ∈ l, jsWhitespace c = false) : jsTrim l = l := by
  apply jsTrim_eq_self
  · intro c hc
    exact h c (by cases l <;> simp_all)
  · intro c hc
    have hne : l ≠ [] := by
      intro he
      subst he
      simp at hc
    have hmem := List.getLast_mem_getLast? hne
    rw [hc] at hmem
    simp only [Option.mem_def, Option.some.injEq] at hmem
    exact hmem ▸ h _ (List.getLast_mem hne)

theorem getLast_jsTrim_not_ws (l : JStr) :
    ∀ c, (jsTrim l).getLast? = some c → jsWhitespace c = false := by
  intro c hc
  exact trimRight_getLast_not_ws _ c hc

theorem isPrefixOf_append_self (t x : JStr) : t.isPrefixOf (t ++ x) = true := by
  induction t with
  | nil => simp [List.isPrefixOf]
  | cons a as ih => simp [List.isPrefixOf, ih]

theorem mem_dropLeadingPlus {c : Char} {l : JStr} (h : c ∈ dropLeadingPlus l) : c ∈ l := by
  unfold dropLeadingPlus at h
  split at h
  · exact List.mem_cons_of_mem _ h
  · exact h

theorem normalizeE164_shape (n : JStr) :
    ∀ c ∈ normalizeE164 n, isE164Char c = true := by
  intro c hc
  unfold normalizeE164 at hc
  rcases List.mem_cons.mp hc with h | h
  · subst h; decide
  · exact (List.mem_filter.mp (mem_dropLeadingPlus h)).2

theorem waTag_isPrefixOf_plus (g : JStr) : waTag.isPrefixOf ('+' :: g) = false := rfl

theorem stripWhatsAppTag_plus (g : JStr) : stripWhatsAppTag ('+' :: g) = '+' :: g := by
  simp [stripWhatsAppTag, waTag_isPrefixOf_plus]

theorem normalizeE164_idem (n : JStr) :
    normalizeE164 (normalizeE164 n) = normalizeE164 n := by
  have hg : ∀ c ∈ normalizeE164 n, isE164Char c = true := normalizeE164_shape n
  obtain ⟨g, hgdef⟩ : ∃ g, normalizeE164 n = '+' :: g := ⟨_, rfl⟩
  rw [hgdef] at hg ⊢
  show ('+' :: dropLeadingPlus
      ((jsTrim (stripWhatsAppTag ('+' :: g))).filter isE164Char)) = '+' :: g
  rw [stripWhatsAppTag_plus,
    jsTrim_eq_self_of_all _ (fun c hc => not_ws_of_e164 (hg c hc)),
    List.filter_eq_self.mpr hg]
  rfl

theorem toLower_of_isE164 {c : Char} (h : isE164Char c = true) : Char.toLower c = c := by
  simp only [isE164Char, Bool.or_eq_true, beq_iff_eq] at h
  rcases h with h | h
  · exact toLower_of_isDigit h
  · subst h; decide

theorem jsLower_eq_self {l : JStr} (h : ∀ c ∈ l, Char.toLower c = c) :
    jsLower l = l := by
  unfold jsLower
  induction l with
  | nil => rfl
  | cons a as ih =>
    simp only [List.map_cons, h a (List.mem_cons_self a as)]
    rw [ih (fun c hc => h c (List.mem_cons_of_mem _ hc))]

theorem getLast_drop_not_nil {l : JStr} {n : Nat} (h : l.drop n ≠ []) :
    (l.drop n).getLast? = l.getLast? := by
  conv_rhs => rw [← List.take_append_drop n l]
  rw [List.getLast?_append_of_ne_nil _ h]

theorem isNumericId_spec {l : JStr} (h : isNumericId l = true) :
    l ≠ [] ∧ ∀ c ∈ l, c.isDigit = true := by
  simp only [isNumericId, Bool.and_eq_true, Bool.not_eq_true', List.isEmpty_eq_false,
    List.all_eq_true] at h
  exact ⟨by simpa using h.1, fun c hc => by simpa using h.2 c hc⟩

theorem tg_chars_lower : ∀ c ∈ telegramTag, Char.toLower c = c := by decide

theorem tg_chars_not_ws : ∀ c ∈ telegramTag, jsWhitespace c = false := by decide

theorem tg_append_head (u : JStr) : (telegramTag ++ u).head? = some 't' := rfl

theorem tg_append_isEmpty (u : JStr) : (telegramTag ++ u).isEmpty = false := rfl

theorem tg_second_pass (u : JStr) (hu_ne : u ≠ [])
    (hu_shape : u.head? = some '@' ∨ isNumericId u = true)
    (hu_lower : ∀ c ∈ u, Char.toLower c = c)
    (hu_last : ∀ c, u.getLast? = some c → jsWhitespace c = false) :
    normalizeAllowFromEntry (telegramTag ++ u) .telegram = telegramTag ++ u := by
  have htrim : jsTrim (telegramTag ++ u) = telegramTag ++ u := by
    apply jsTrim_eq_self
    · intro c hc
      rw [tg_append_head] at hc
      cases hc
      decide
    · intro c hc
      rw [List.getLast?_append_of_ne_nil _ hu_ne] at hc
      exact hu_last c hc
  have hlow : jsLower (telegramTag ++ u) = telegramTag ++ u := by
    apply jsLower_eq_self
    intro c hc
    rcases List.mem_append.mp hc with h | h
    · exact tg_chars_lower c h
    · exact hu_lower c h
  unfold normalizeAllowFromEntry
  rw [htrim, hlow]
  rw [if_neg (by rw [tg_append_isEmpty]; exact Bool.false_ne_true)]
  have hstrip : tgWithoutTag (telegramTag ++ u) = u := by
    unfold tgWithoutTag
    rw [if_pos (isPrefixOf_append_self telegramTag u), List.drop_left]
  show telegramTag ++ tgUsername (tgWithoutTag (telegramTag ++ u)) = telegramTag ++ u
  rw [hstrip]
  unfold tgUsername
  rcases hu_shape with hat | hnum
  · rw [if_pos hat]
  · obtain ⟨x, xs, hx⟩ : ∃ x xs, u = x :: xs := by
      cases u with
      | nil => exact absurd rfl hu_ne
      | cons x xs => exact ⟨x, xs, rfl⟩
    have hxd : x.isDigit = true := by
      subst hx
      exact (isNumericId_spec hnum).2 x (List.mem_cons_self x xs)
    have hne_at : ¬(u.head? = some '@') := by
      subst hx
      simp only [List.head?_cons, Option.some.injEq]
      intro he
      rw [he] at hxd
      exact absurd hxd (by decide)
    rw [if_neg hne_at, if_pos hnum]

theorem mem_tgWithoutTag {c : Char} {T : JStr} (h : c ∈ tgWithoutTag T) : c ∈ T := by
  unfold tgWithoutTag at h
  split at h
  · exact List.mem_of_mem_drop h
  · exact h

theorem tgWithoutTag_getLast {T : JStr} (hne : tgWithoutTag T ≠ []) :
    (tgWithoutTag T).getLast? = T.getLast? := by
  unfold tgWithoutTag at hne ⊢
  split
  · rename_i hp
    rw [if_pos hp] at hne
    exact getLast_drop_not_nil hne
  · rfl

theorem tgUsername_ne_nil (w : JStr) : tgUsername w ≠ [] := by
  unfold tgUsername
  split
  · rename_i h
    intro he
    rw [he] at h
    simp at h
  · split
    · rename_i h
      intro he
      rw [he] at h
      exact absurd h (by decide)
    · exact List.cons_ne_nil _ _

theorem tgUsername_shape (w : JStr) :
    (tgUsername w).head? = some '@' ∨ isNumericId (tgUsername w) = true := by
  unfold tgUsername
  split
  · rename_i h
    exact Or.inl h
  · split
    · rename_i h
      exact Or.inr h
    · exact Or.inl rfl

theorem mem_tgUsername {c : Char} {w : JStr} (h : c ∈ tgUsername w) :
    c = '@' ∨ c ∈ w := by
  unfold tgUsername at h
  split at h
  · exact Or.inr h
  · split at h
    · exact Or.inr h
    · rcases List.mem_cons.mp h with h1 | h1
      · exact Or.inl h1
      · exact Or.inr h1

theorem tgUsername_getLast {w : JStr} {c : Char}
    (h : (tgUsername w).getLast? = some c) : c = '@' ∨ w.getLast? = some c := by
  unfold tgUsername at h
  split at h
  · exact Or.inr h
  · split at h
    · exact Or.inr h
    · cases w with
      | nil => simp at h; exact Or.inl h.symm
      | cons x xs =>
        rw [List.getLast?_cons_cons] at h
        exact Or.inr h

theorem jsTrim_normalizeE164 (n : JStr) :
    jsTrim (normalizeE164 n) = normalizeE164 n :=
  jsTrim_eq_self_of_all _ (fun c hc => not_ws_of_e164 (normalizeE164_shape n c hc))

theorem jsLower_normalizeE164 (n : JStr) :
    jsLower (normalizeE164 n) = normalizeE164 n :=
  jsLower_eq_self (fun c hc => toLower_of_isE164 (normalizeE164_shape n c hc))

theorem normalizeE164_isEmpty (n : JStr) : (normalizeE164 n).isEmpty = false := rfl

theorem normalizeAllowFromEntry_idem (entry : JStr) (p : AllowFromProvider) :
    normalizeAllowFromEntry (normalizeAllowFromEntry entry p) p
      = normalizeAllowFromEntry entry p := by
  by_cases h0 : (jsLower (jsTrim entry)).isEmpty = true
  · have h1 : normalizeAllowFromEntry entry p = [] := by
      unfold normalizeAllowFromEntry
      rw [if_pos h0]
    rw [h1]
    cases p <;> rfl
  · have hTfix : ∀ c ∈ jsLower (jsTrim entry), Char.toLower c = c := by
      intro c hc
      unfold jsLower at hc
      rcases List.mem_map.mp hc with ⟨d, _, hd⟩
      rw [← hd]
      exact toLower_toLower d
    have hTlast : ∀ c, (jsLower (jsTrim entry)).getLast? = some c →
        jsWhitespace c = false := by
      intro c hc
      unfold jsLower at hc
      rw [List.getLast?_map] at hc
      rcases Option.map_eq_some'.mp hc with ⟨d, hd1, hd2⟩
      rw [← hd2, jsWhitespace_toLower]
      exact getLast_jsTrim_not_ws entry d hd1
    cases p with
    | telegram =>
      have hfirst : normalizeAllowFromEntry entry .telegram =
          telegramTag ++ tgUsername (tgWithoutTag (jsLower (jsTrim entry))) := by
        unfold normalizeAllowFromEntry
        rw [if_neg h0]
      rw [hfirst]
      apply tg_second_pass
      · exact tgUsername_ne_nil _
      · exact tgUsername_shape _
      · intro c hc
        rcases mem_tgUsername hc with h | h
        · subst h; decide
        · exact hTfix c (mem_tgWithoutTag h)
      · intro c hc
        rcases tgUsername_getLast hc with h | h
        · subst h; decide
        · exact hTlast c
            (by rw [← tgWithoutTag_getLast (fun he => by simp [he] at h)]; exact h)
    | web =>
      have hfirst : normalizeAllowFromEntry entry .web = normalizeE164 entry := by
        unfold normalizeAllowFromEntry
        rw [if_neg h0]
      rw [hfirst]
      unfold normalizeAllowFromEntry
      rw [jsTrim_normalizeE164, jsLower_normalizeE164]
      rw [if_neg (by rw [normalizeE164_isEmpty]; exact Bool.false_ne_true)]
      exact normalizeE164_idem entry
    | twilio =>
      have hfirst : normalizeAllowFromEntry entry .twilio = normalizeE164 entry := by
        unfold normalizeAllowFromEntry
        rw [if_neg h0]
      rw [hfirst]
      unfold normalizeAllowFromEntry
      rw [jsTrim_normalizeE164, jsLower_normalizeE164]
      rw [if_neg (by rw [normalizeE164_isEmpty]; exact Bool.false_ne_true)]
      exact normalizeE164_idem entry

theorem takeWhile_digits_append {d r : JStr} (hd : ∀ c ∈ d, c.isDigit = true)
    (hr : ∀ c, r.head? = some c → c.isDigit = false) :
    (d ++ r).takeWhile Char.isDigit = d ∧ (d ++ r).dropWhile Char.isDigit = r := by
  induction d with
  | nil =>
    simp only [List.nil_append]
    cases r with
    | nil => exact ⟨rfl, rfl⟩
    | cons x xs =>
      have hx : x.isDigit = false := hr x rfl
      constructor
      · rw [List.takeWhile_cons_of_neg (by simp [hx])]
      · rw [List.dropWhile_cons_of_neg (by simp [hx])]
  | cons a as ih =>
    have ha : a.isDigit = true := hd a (List.mem_cons_self a as)
    have ih2 := ih (fun c hc => hd c (List.mem_cons_of_mem _ hc))
    constructor
    · rw [List.cons_append, List.takeWhile_cons_of_pos (by simp [ha]), ih2.1]
    · rw [List.cons_append, List.dropWhile_cons_of_pos (by simp [ha]), ih2.2]

theorem matchDigitsThen_exact {d suffix : JStr} (hd_ne : d ≠ [])
    (hd : ∀ c ∈ d, c.isDigit = true)
    (hs : ∀ c, suffix.head? = some c → c.isDigit = false) :
    matchDigitsThen suffix (d ++ suffix) = some d := by
  obtain ⟨ht, hw⟩ := takeWhile_digits_append hd hs
  unfold matchDigitsThen
  rw [ht, hw]
  rw [if_neg (by simp [hd_ne]), if_pos rfl]

theorem waSuffix_head_not_digit : ∀ c, waSuffix.head? = some c → c.isDigit = false := by
  intro c h
  have he : waSuffix.head? = some '@' := rfl
  rw [he] at h
  cases h
  decide

theorem normalizeE164_plus_digits {d : JStr} (hd : ∀ c ∈ d, c.isDigit = true) :
    normalizeE164 ('+' :: d) = '+' :: d := by
  have hall : ∀ c ∈ '+' :: d, isE164Char c = true := by
    intro c hc
    rcases List.mem_cons.mp hc with h | h
    · subst h; decide
    · exact e164_of_isDigit (hd c h)
  show ('+' :: dropLeadingPlus
      ((jsTrim (stripWhatsAppTag ('+' :: d))).filter isE164Char)) = '+' :: d
  rw [stripWhatsAppTag_plus,
    jsTrim_eq_self_of_all _ (fun c hc => not_ws_of_e164 (hall c hc)),
    List.filter_eq_self.mpr hall]
  rfl

theorem filter_digits_plus {d : JStr} (hd : ∀ c ∈ d, c.isDigit = true) :
    ('+' :: d).filter (fun c => c.isDigit) = d := by
  rw [List.filter_cons]
  simp only [Char.isDigit, decide_eq_true_eq]
  rw [if_neg (by decide)]
  exact List.filter_eq_self.mpr (fun a ha => hd a ha)

theorem jid_roundtrip_left {e : JStr} (lk : JStr → Option JStr)
    (hne : (normalizeE164 e).tail ≠ [])
    (hdig : ∀ c ∈ (normalizeE164 e).tail, c.isDigit = true) :
    jidToE164 lk (toWhatsappJid e) = some (normalizeE164 e) := by
  have hsplit : normalizeE164 e = '+' :: (normalizeE164 e).tail := rfl
  have hfilter : (normalizeE164 e).filter (fun c => c.isDigit)
      = (normalizeE164 e).tail := by
    conv_lhs => rw [hsplit]
    exact filter_digits_plus hdig
  unfold toWhatsappJid
  rw [hfilter]
  unfold jidToE164
  rw [matchDigitsThen_exact hne hdig waSuffix_head_not_digit]
  exact congrArg some hsplit.symm

theorem jid_roundtrip_right {d : JStr} (hd_ne : d ≠ [])
    (hd : ∀ c ∈ d, c.isDigit = true) (lk : JStr → Option JStr) :
    jidToE164 lk (d ++ waSuffix) = some ('+' :: d) ∧
      toWhatsappJid ('+' :: d) = d ++ waSuffix := by
  constructor
  · unfold jidToE164
    rw [matchDigitsThen_exact hd_ne hd waSuffix_head_not_digit]
  · unfold toWhatsappJid
    rw [normalizeE164_plus_digits hd, filter_digits_plus hd]

theorem stripWhatsAppTag_append (x : JStr) : stripWhatsAppTag (waTag ++ x) = x := by
  unfold stripWhatsAppTag
  rw [if_pos (isPrefixOf_append_self waTag x), List.drop_left]

theorem normalizeE164_waTag_plus {d : JStr} (hd : ∀ c ∈ d, c.isDigit = true) :
    normalizeE164 (waTag ++ '+' :: d) = '+' :: d := by
  have hall : ∀ c ∈ '+' :: d, isE164Char c = true := by
    intro c hc
    rcases List.mem_cons.mp hc with h | h
    · subst h; decide
    · exact e164_of_isDigit (hd c h)
  show ('+' :: dropLeadingPlus
      ((jsTrim (stripWhatsAppTag (waTag ++ '+' :: d))).filter isE164Char)) = '+' :: d
  rw [stripWhatsAppTag_append,
    jsTrim_eq_self_of_all _ (fun c hc => not_ws_of_e164 (hall c hc)),
    List.filter_eq_self.mpr hall]
  rfl

theorem matchGroupJid_waTag (x : JStr) : matchGroupJid (waTag ++ x) = false := rfl

theorem matchGroupJid_telegramTag (x : JStr) :
    matchGroupJid (telegramTag ++ x) = false := rfl

theorem matchGroupJid_plus (x : JStr) : matchGroupJid ('+' :: x) = false := rfl

theorem telegramTag_not_isPrefixOf_waTag (x : JStr) :
    telegramTag.isPrefixOf (waTag ++ x) = false := rfl

theorem telegramTag_not_isPrefixOf_plus (x : JStr) :
    telegramTag.isPrefixOf ('+' :: x) = false := rfl

theorem matchGroupJid_group {d1 d2 : JStr} (h1 : d1 ≠ []) (h2 : d2 ≠ [])
    (hd1 : ∀ c ∈ d1, c.isDigit = true) (hd2 : ∀ c ∈ d2, c.isDigit = true) :
    matchGroupJid (d1 ++ '-' :: (d2 ++ gUsSuffix)) = true := by
  obtain ⟨hta, hdr⟩ := takeWhile_digits_append (r := '-' :: (d2 ++ gUsSuffix)) hd1
    (by intro c hc; cases hc; decide)
  have hgus : ∀ c, gUsSuffix.head? = some c → c.isDigit = false := by
    intro c h
    have he : gUsSuffix.head? = some '@' := rfl
    rw [he] at h
    cases h
    decide
  obtain ⟨hta2, hdr2⟩ := takeWhile_digits_append (d := d2) hd2 hgus
  unfold matchGroupJid
  rw [hta, hdr]
  rw [if_neg (by simp [h1])]
  simp only [hta2, hdr2]
  simp [h2]

theorem deriveSessionKey_global (s : Option JStr) :
    deriveSessionKey .globalScope s = "global".toList := rfl

theorem deriveSessionKey_missing : deriveSessionKey .perSender none = "unknown".toList := rfl

theorem deriveSessionKey_empty :
    deriveSessionKey .perSender (some []) = "unknown".toList := rfl

theorem deriveSessionKey_waTag {d : JStr} (hd : ∀ c ∈ d, c.isDigit = true) :
    deriveSessionKey .perSender (some (waTag ++ '+' :: d)) = '+' :: d := by
  show (if (waTag ++ '+' :: d).isEmpty = true then "unknown".toList
    else if matchGroupJid (waTag ++ '+' :: d) = true then
      "group:".toList ++ (waTag ++ '+' :: d)
    else if telegramTag.isPrefixOf (waTag ++ '+' :: d) = true then waTag ++ '+' :: d
    else normalizeE164 (waTag ++ '+' :: d)) = '+' :: d
  rw [if_neg (by rw [show (waTag ++ '+' :: d).isEmpty = false from rfl]; exact Bool.false_ne_true),
    if_neg (by rw [matchGroupJid_waTag]; exact Bool.false_ne_true),
    if_neg (by rw [telegramTag_not_isPrefixOf_waTag]; exact Bool.false_ne_true)]
  exact normalizeE164_waTag_plus hd

theorem deriveSessionKey_plus {d : JStr} (hd : ∀ c ∈ d, c.isDigit = true) :
    deriveSessionKey .perSender (some ('+' :: d)) = '+' :: d := by
  show (if ('+' :: d).isEmpty = true then "unknown".toList
    else if matchGroupJid ('+' :: d) = true then "group:".toList ++ ('+' :: d)
    else if telegramTag.isPrefixOf ('+' :: d) = true then '+' :: d
    else normalizeE164 ('+' :: d)) = '+' :: d
  rw [if_neg (by rw [show ('+' :: d).isEmpty = false from rfl]; exact Bool.false_ne_true),
    if_neg (by rw [matchGroupJid_plus]; exact Bool.false_ne_true),
    if_neg (by rw [telegramTag_not_isPrefixOf_plus]; exact Bool.false_ne_true)]
  exact normalizeE164_plus_digits hd

theorem deriveSessionKey_group {d1 d2 : JStr} (h1 : d1 ≠ []) (h2 : d2 ≠ [])
    (hd1 : ∀ c ∈ d1, c.isDigit = true) (hd2 : ∀ c ∈ d2, c.isDigit = true) :
    deriveSessionKey .perSender (some (d1 ++ '-' :: (d2 ++ gUsSuffix)))
      = "group:".toList ++ (d1 ++ '-' :: (d2 ++ gUsSuffix)) := by
  obtain ⟨x, xs, hx⟩ : ∃ x xs, d1 = x :: xs := by
    cases d1 with
    | nil => exact absurd rfl h1
    | cons x xs => exact ⟨x, xs, rfl⟩
  have hemp : (d1 ++ '-' :: (d2 ++ gUsSuffix)).isEmpty = false := by
    subst hx; rfl
  show (if (d1 ++ '-' :: (d2 ++ gUsSuffix)).isEmpty = true then "unknown".toList
    else if matchGroupJid (d1 ++ '-' :: (d2 ++ gUsSuffix)) = true then
      "group:".toList ++ (d1 ++ '-' :: (d2 ++ gUsSuffix))
    else if telegramTag.isPrefixOf (d1 ++ '-' :: (d2 ++ gUsSuffix)) = true then
      d1 ++ '-' :: (d2 ++ gUsSuffix)
    else normalizeE164 (d1 ++ '-' :: (d2 ++ gUsSuffix)))
      = "group:".toList ++ (d1 ++ '-' :: (d2 ++ gUsSuffix))
  rw [if_neg (by rw [hemp]; exact Bool.false_ne_true),
    if_pos (matchGroupJid_group h1 h2 hd1 hd2)]

theorem deriveSessionKey_telegram (u : JStr) :
    deriveSessionKey .perSender (some (telegramTag ++ u)) = telegramTag ++ u := by
  show (if (telegramTag ++ u).isEmpty = true then "unknown".toList
    else if matchGroupJid (telegramTag ++ u) = true then
      "group:".toList ++ (telegramTag ++ u)
    else if telegramTag.isPrefixOf (telegramTag ++ u) = true then telegramTag ++ u
    else normalizeE164 (telegramTag ++ u)) = telegramTag ++ u
  rw [if_neg (by rw [tg_append_isEmpty]; exact Bool.false_ne_true),
    if_neg (by rw [matchGroupJid_telegramTag]; exact Bool.false_ne_true),
    if_pos (isPrefixOf_append_self telegramTag u)]

theorem mem_insertDesc {x m : ListedMessage} {l : List ListedMessage} :
    x ∈ insertDesc m l ↔ x = m ∨ x ∈ l := by
  induction l with
  | nil => simp [insertDesc]
  | cons a as ih =>
    unfold insertDesc
    split
    · simp [List.mem_cons]
    · simp only [List.mem_cons, ih]
      tauto

theorem pairwise_insertDesc {m : ListedMessage} {l : List ListedMessage}
    (h : l.Pairwise (fun a b => msgTime b ≤ msgTime a)) :
    (insertDesc m l).Pairwise (fun a b => msgTime b ≤ msgTime a) := by
  induction l with
  | nil => simp [insertDesc]
  | cons a as ih =>
    rw [List.pairwise_cons] at h
    unfold insertDesc
    split
    · rename_i hlt
      rw [List.pairwise_cons]
      constructor
      · intro y hy
        rcases List.mem_cons.mp hy with h1 | h1
        · subst h1; exact le_of_lt hlt
        · exact le_trans (h.1 y h1) (le_of_lt hlt)
      · exact List.Pairwise.cons h.1 h.2
    · rename_i hge
      rw [List.pairwise_cons]
      constructor
      · intro y hy
        rcases mem_insertDesc.mp hy with h1 | h1
        · subst h1; exact le_of_not_lt hge
        · exact h.1 y h1
      · exact ih h.2

theorem sortDesc_aux_pairwise (l : List ListedMessage) :
    ∀ acc, acc.Pairwise (fun a b => msgTime b ≤ msgTime a) →
      (l.foldl (fun acc m => insertDesc m acc) acc).Pairwise
        (fun a b => msgTime b ≤ msgTime a) := by
  induction l with
  | nil => intro acc h; exact h
  | cons a as ih =>
    intro acc h
    exact ih _ (pairwise_insertDesc h)

theorem sortDesc_pairwise (l : List ListedMessage) :
    (sortDesc l).Pairwise (fun a b => msgTime b ≤ msgTime a) :=
  sortDesc_aux_pairwise l [] (List.Pairwise.nil)

theorem mem_sortDesc_aux (l : List ListedMessage) :
    ∀ acc x, (x ∈ l.foldl (fun acc m => insertDesc m acc) acc ↔ x ∈ acc ∨ x ∈ l) := by
  induction l with
  | nil => intro acc x; simp
  | cons a as ih =>
    intro acc x
    rw [List.foldl_cons, ih]
    rw [mem_insertDesc]
    simp [List.mem_cons]
    tauto

theorem mem_sortDesc {x : ListedMessage} {l : List ListedMessage} :
    x ∈ sortDesc l ↔ x ∈ l := by
  rw [sortDesc, mem_sortDesc_aux]
  simp

theorem pollOnce_sorted (last : Option JStr) (msgs : List ListedMessage) :
    (pollOnce last msgs).1.Pairwise (fun a b => msgTime a ≤ msgTime b) := by
  unfold pollOnce
  apply List.Pairwise.filter
  rw [List.pairwise_reverse]
  exact sortDesc_pairwise _

theorem pollOnce_mem (last : Option JStr) (msgs : List ListedMessage)
    (m : ListedMessage) :
    m ∈ (pollOnce last msgs).1 ↔
      m ∈ msgs ∧ m.direction = "inbound".toList ∧ pollKeep last m = true := by
  unfold pollOnce
  rw [List.mem_filter, List.mem_reverse, mem_sortDesc, List.mem_filter]
  simp only [decide_eq_true_eq]
  tauto

theorem pollOnce_newest (last : Option JStr) (msgs : List ListedMessage)
    (m : ListedMessage) (rest : List ListedMessage)
    (h : sortDesc (msgs.filter (fun x => x.direction = "inbound".toList)) = m :: rest) :
    (pollOnce last msgs).2 = m.sid ∧
      ∀ x ∈ msgs, x.direction = "inbound".toList → msgTime x ≤ msgTime m := by
  constructor
  · show (match sortDesc (List.filter (fun m => decide (m.direction = "inbound".toList)) msgs) with
      | y :: _ => y.sid
      | [] => last) = m.sid
    rw [show List.filter (fun m => decide (m.direction = "inbound".toList)) msgs
        = List.filter (fun x => decide (x.direction = "inbound".toList)) msgs from rfl, h]
  · intro x hx hdir
    have hmem : x ∈ sortDesc (msgs.filter (fun x => x.direction = "inbound".toList)) := by
      rw [mem_sortDesc, List.mem_filter]
      exact ⟨hx, by simp [hdir]⟩
    rw [h] at hmem
    rcases List.mem_cons.mp hmem with h1 | h1
    · subst h1; exact le_refl _
    · have hp := sortDesc_pairwise (msgs.filter (fun x => x.direction = "inbound".toList))
      rw [h, List.pairwise_cons] at hp
      exact hp.1 x h1

theorem chunksLen_cons (c : List Nat) (cs : List (List Nat)) :
    chunksLen (c :: cs) = c.length + chunksLen cs := by
  simp [chunksLen]

theorem trackingTransform_ok {maxSize : Nat} :
    ∀ (chunks : List (List Nat)) (total : Nat),
      total + chunksLen chunks ≤ maxSize →
      trackingTransform maxSize total chunks = .ok (total + chunksLen chunks) := by
  intro chunks
  induction chunks with
  | nil =>
    intro total h
    simp [trackingTransform, chunksLen]
  | cons c cs ih =>
    intro total h
    rw [chunksLen_cons] at h
    unfold trackingTransform
    rw [if_neg (by omega)]
    rw [ih (total + c.length) (by omega)]
    congr 1
    rw [chunksLen_cons]
    omega

theorem trackingTransform_abort {maxSize : Nat} :
    ∀ (pre : List (List Nat)) (c : List Nat) (post : List (List Nat)) (total : Nat),
      total + chunksLen pre ≤ maxSize →
      maxSize < total + chunksLen pre + c.length →
      trackingTransform maxSize total (pre ++ c :: post) =
        .error (sizeExceededMsg (total + chunksLen pre + c.length) maxSize) := by
  intro pre
  induction pre with
  | nil =>
    intro c post total h1 h2
    simp only [chunksLen, List.map_nil, List.sum_nil, Nat.add_zero] at h1 h2
    rw [List.nil_append]
    have h0 : total + chunksLen [] + c.length = total + c.length := by
      simp [chunksLen]
    rw [h0]
    show (if total + c.length > maxSize then
        Except.error (sizeExceededMsg (total + c.length) maxSize)
      else trackingTransform maxSize (total + c.length) post) =
      Except.error (sizeExceededMsg (total + c.length) maxSize)
    rw [if_pos (by omega)]
  | cons p ps ih =>
    intro c post total h1 h2
    rw [chunksLen_cons] at h1 h2
    rw [List.cons_append, chunksLen_cons]
    show (if total + p.length > maxSize then
        Except.error (sizeExceededMsg (total + p.length) maxSize)
      else trackingTransform maxSize (total + p.length) (ps ++ c :: post)) =
      Except.error (sizeExceededMsg (total + (p.length + chunksLen ps) + c.length) maxSize)
    rw [if_neg (by omega)]
    rw [ih c post (total + p.length) (by omega) (by omega)]
    congr 2
    omega

/-- Claim C1. The claim states that every provider rejects media larger than
its `maxMediaSize` before any network operation. The code does no such check
on any send path; this amended theorem records what does hold: the Twilio and
Telegram send paths are entirely independent of the declared media size (so
no size-based rejection can occur), and the only size enforcement in the
repository is the telegram streaming-download helper, whose tracking
transform accepts a chunk stream exactly when the cumulative byte count stays
within `maxSize` and aborts as soon as the count crosses the limit, never
consuming later chunks. -/
theorem C1_no_presend_size_check :
    (∀ (init : Bool) (cfg : TwilioConfig)
      (bk : TwilioMessageParams → Except JStr JStr) (ms : Option JStr)
      (t b : JStr) (m : ProviderMedia) (rest : List ProviderMedia)
      (s1 s2 : Option Nat),
      twilioSend init cfg bk ms t b ({ m with size := s1 } :: rest)
        = twilioSend init cfg bk ms t b ({ m with size := s2 } :: rest)) ∧
    (∀ (env : TgEnv) (t b : JStr) (m : ProviderMedia) (s1 s2 : Option Nat),
      tgSendMediaMessage env t b { m with size := s1 }
        = tgSendMediaMessage env t b { m with size := s2 }) ∧
    (∀ (maxSize : Nat) (chunks : List (List Nat)) (total : Nat),
      total + chunksLen chunks ≤ maxSize →
      trackingTransform maxSize total chunks = .ok (total + chunksLen chunks)) ∧
    (∀ (maxSize : Nat) (pre : List (List Nat)) (c : List Nat)
      (post : List (List Nat)) (total : Nat),
      total + chunksLen pre ≤ maxSize →
      maxSize < total + chunksLen pre + c.length →
      trackingTransform maxSize total (pre ++ c :: post) =
        .error (sizeExceededMsg (total + chunksLen pre + c.length) maxSize)) := by
  refine ⟨fun _ _ _ _ _ _ _ _ _ _ => rfl, fun _ _ _ _ _ _ => rfl, ?_, ?_⟩
  · intro maxSize chunks total h
    exact trackingTransform_ok chunks total h
  · intro maxSize pre c post total h1 h2
    exact trackingTransform_abort pre c post total h1 h2

/-- Witness for C1: the tracking transform at limit 4 accepts 2+2 bytes and
aborts on a stream whose third chunk crosses the limit, and a concrete Twilio
send ignores a declared size change. -/
theorem C1_no_presend_size_check_witness :
    trackingTransform 4 0 [[1, 2], [3, 4]] = .ok 4 ∧
    trackingTransform 4 0 ([[1, 2]] ++ [3, 4, 5] :: [[6]]) =
      .error (sizeExceededMsg (0 + chunksLen [[1, 2]] + 3) 4) ∧
    twilioSend true { whatsappFrom := "+1".toList } (fun _ => .ok "SM".toList)
        none "+2".toList "hi".toList
        [{ mtype := .image, url := some "u".toList, size := some 1 }]
      = twilioSend true { whatsappFrom := "+1".toList } (fun _ => .ok "SM".toList)
        none "+2".toList "hi".toList
        [{ mtype := .image, url := some "u".toList, size := some 99999999 }] := by
  refine ⟨?_, ?_, ?_⟩
  · have h := C1_no_presend_size_check.2.2.1 4 [[1, 2], [3, 4]] 0 (by decide)
    simpa using h
  · exact C1_no_presend_size_check.2.2.2 4 [[1, 2]] [3, 4, 5] [[6]] 0
      (by decide) (by decide)
  · have h := C1_no_presend_size_check.1 true { whatsappFrom := "+1".toList }
      (fun _ => .ok "SM".toList) none "+2".toList "hi".toList
      { mtype := .image, url := some "u".toList } [] (some 1) (some 99999999)
    simpa using h

/-- Counterexample for C1 as stated: a Twilio send whose single media
attachment declares 6 MiB (above the 5 MiB capability) still performs the
backend send call, and a Telegram media send whose attachment declares 3 GiB
(above the default 2 GiB capability) still downloads the media URL and calls
the backend, so no provider rejects oversized media before the network. -/
theorem C1_counterexample :
    twilioMaxMediaSize < 6291456 ∧
    (twilioSend true { whatsappFrom := "+15551234567".toList }
        (fun _ => .ok "SM1".toList) none "+15550001111".toList "hi".toList
        [{ mtype := .image, url := some "https://x/big.jpg".toList,
           size := some 6291456 }]).2 = [.backendSend] ∧
    (getMaxMediaSize none).1 < 3221225472 ∧
    (tgSendMediaMessage
        { resolve := (fun _ => .ok 1), fetch := (fun _ => .ok { ok := true }),
          sendFile := .ok 7, sendMessage := .ok 7 }
        "@peer".toList "hi".toList
        { mtype := .document, url := some "https://x/big.bin".toList,
          size := some 3221225472 }).2 =
      [.resolveEntity "@peer".toList, .httpGet "https://x/big.bin".toList,
        .backendSend] := by
  exact ⟨by decide, rfl, by decide, rfl⟩

/-- Claim C2 (amended). The wa-web and wa-twilio providers never throw from
an initialized send: a backend failure is shaped into a SendResult with
status failed carrying the error message, and a backend success yields status
sent. The Telegram provider, by contrast, has no try/catch in send: an
entity-resolution failure (and likewise any download or backend failure)
propagates as a thrown exception instead of a failed SendResult. -/
theorem C2_send_failure_shaping :
    (∀ (cfg : TwilioConfig) (ms : Option JStr) (t b e : JStr)
      (media : List ProviderMedia),
      (twilioSend true cfg (fun _ => .error e) ms t b media).1 =
        .ok { messageId := [], status := .failed, error := some e }) ∧
    (∀ (cfg : TwilioConfig) (ms : Option JStr) (t b sid : JStr)
      (media : List ProviderMedia),
      (twilioSend true cfg (fun _ => .ok sid) ms t b media).1 =
        .ok { messageId := sid, status := .sent }) ∧
    (∀ e : JStr, webSend true (.error e) =
      .ok { messageId := [], status := .failed, error := some e }) ∧
    (∀ r : JStr × JStr, webSend true (.ok r) =
      .ok { messageId := r.1, status := .sent }) ∧
    (∀ (e : JStr) (fetch : JStr → Except JStr FetchResp)
      (sf sm : Except JStr Nat) (t b : JStr) (m : ProviderMedia)
      (rest : List ProviderMedia),
      (telegramSend true
        { resolve := (fun _ => .error e), fetch := fetch,
          sendFile := sf, sendMessage := sm } t b (m :: rest)).1 = .error e) ∧
    (∀ (e : JStr) (fetch : JStr → Except JStr FetchResp)
      (sf sm : Except JStr Nat) (t b : JStr),
      (telegramSend true
        { resolve := (fun _ => .error e), fetch := fetch,
          sendFile := sf, sendMessage := sm } t b []).1 = .error e) :=
  ⟨fun _ _ _ _ _ _ => rfl, fun _ _ _ _ _ _ => rfl, fun _ => rfl, fun _ => rfl,
    fun _ _ _ _ _ _ _ _ => rfl, fun _ _ _ _ _ _ => rfl⟩

/-- Counterexample for C2 as stated: an initialized Telegram send whose media
download returns a non-ok HTTP response rejects with a thrown error (the
Except.error value) and does not resolve to any SendResult at all, let alone
one with status failed. -/
theorem C2_counterexample :
    (telegramSend true
        { resolve := (fun _ => .ok 1),
          fetch := (fun _ => .ok { ok := false, statusText := "Not Found".toList }),
          sendFile := .ok 9, sendMessage := .ok 9 }
        "@peer".toList "hi".toList
        [{ mtype := .image, url := some "https://x/a.jpg".toList }]).1 =
      .error (failedDownloadMsg "https://x/a.jpg".toList "Not Found".toList) ∧
    ∀ r : SendResult,
      (telegramSend true
          { resolve := fun _ => .ok 1,
            fetch := fun _ => .ok { ok := false, statusText := "Not Found".toList },
            sendFile := .ok 9, sendMessage := .ok 9 }
          "@peer".toList "hi".toList
          [{ mtype := .image, url := some "https://x/a.jpg".toList }]).1 ≠
        .ok r := by
  refine ⟨rfl, ?_⟩
  intro r h
  exact Except.noConfusion h

/-- Claim C3 (amended). The actual mapping of TwilioProvider.getDeliveryStatus:
both "delivered" and "sent" normalise to delivered; "read" to read; "failed",
"undelivered" and "canceled" to failed; every other status string (queued,
sending, and any unrecognised value) to sent. The result is unknown only when
the backend fetch itself throws, in which case the thrown message is surfaced.
When the backend supplies an error code, the error field is
`"<code>: <message>"`, with the message defaulting to "Unknown error". -/
theorem C3_delivery_status_mapping :
    normalizeTwilioStatus "delivered".toList = .delivered ∧
    normalizeTwilioStatus "sent".toList = .delivered ∧
    normalizeTwilioStatus "read".toList = .read ∧
    normalizeTwilioStatus "failed".toList = .failed ∧
    normalizeTwilioStatus "undelivered".toList = .failed ∧
    normalizeTwilioStatus "canceled".toList = .failed ∧
    normalizeTwilioStatus "queued".toList = .sent ∧
    normalizeTwilioStatus "sending".toList = .sent ∧
    (∀ s : JStr, s ≠ "delivered".toList → s ≠ "sent".toList →
      s ≠ "read".toList → s ≠ "failed".toList → s ≠ "undelivered".toList →
      s ≠ "canceled".toList → normalizeTwilioStatus s = .sent) ∧
    (∀ (s : Option JStr) (c : Int) (msg : Option JStr) (dU : Option Nat)
      (idStr : JStr) (now : Nat),
      twilioGetDeliveryStatus true
          (.ok { status := s, errorCode := some c, errorMessage := msg,
                 dateUpdated := dU }) idStr now =
        .ok { messageId := idStr,
              status := normalizeTwilioStatus (s.getD "unknown".toList),
              timestamp := dU.getD now,
              error := some (intToStr c ++ ": ".toList ++
                msg.getD "Unknown error".toList),
              providerStatusCode := some (s.getD "unknown".toList) }) ∧
    (∀ (e idStr : JStr) (now : Nat),
      twilioGetDeliveryStatus true (.error e) idStr now =
        .ok { messageId := idStr, status := .unknown, timestamp := now,
              error := some e }) := by
  refine ⟨by decide, by decide, by decide, by decide, by decide, by decide,
    by decide, by decide, ?_, fun _ _ _ _ _ _ => rfl, fun _ _ _ => rfl⟩
  intro s h1 h2 h3 h4 h5 h6
  unfold normalizeTwilioStatus
  rw [if_neg (by tauto), if_neg h3, if_neg (by tauto)]

/-- Witness for C3: the catch-all branch applied to the concrete status
"accepted" yields sent. -/
theorem C3_delivery_status_mapping_witness :
    normalizeTwilioStatus "accepted".toList = .sent :=
  C3_delivery_status_mapping.2.2.2.2.2.2.2.2.1 "accepted".toList
    (by decide) (by decide) (by decide) (by decide) (by decide) (by decide)

/-- Counterexample for C3 as stated: the claim maps "sent" to sent and any
unrecognised status to unknown, but the code maps "sent" to delivered and the
unrecognised "accepted" to sent. -/
theorem C3_counterexample :
    normalizeTwilioStatus "sent".toList = .delivered ∧
    DeliveryState.delivered ≠ DeliveryState.sent ∧
    normalizeTwilioStatus "accepted".toList = .sent ∧
    DeliveryState.sent ≠ DeliveryState.unknown := by
  exact ⟨by decide, by decide, by decide, by decide⟩

/-- Claim C4. Session-key derivation (deriveSessionKey, modelled from the
spec since only its tests are under src/): scope global always yields
"global"; with scope per-sender an absent or empty sender yields "unknown", a
`whatsapp:+<digits>` sender yields `+<digits>` with the prefix stripped, a
bare `+<digits>` sender is kept canonical, a `<digits>-<digits>@g.us` group
JID is prefixed with "group:", any `telegram:`-prefixed sender is kept
unchanged, and in particular telegram:@alice and +15551234567 derive
distinct keys. -/
theorem C4_session_key_derivation :
    (∀ s : Option JStr, deriveSessionKey .globalScope s = "global".toList) ∧
    deriveSessionKey .perSender none = "unknown".toList ∧
    deriveSessionKey .perSender (some []) = "unknown".toList ∧
    (∀ d : JStr, (∀ c ∈ d, c.isDigit = true) →
      deriveSessionKey .perSender (some (waTag ++ '+' :: d)) = '+' :: d) ∧
    (∀ d : JStr, (∀ c ∈ d, c.isDigit = true) →
      deriveSessionKey .perSender (some ('+' :: d)) = '+' :: d) ∧
    (∀ d1 d2 : JStr, d1 ≠ [] → d2 ≠ [] →
      (∀ c ∈ d1, c.isDigit = true) → (∀ c ∈ d2, c.isDigit = true) →
      deriveSessionKey .perSender (some (d1 ++ '-' :: (d2 ++ gUsSuffix))) =
        "group:".toList ++ (d1 ++ '-' :: (d2 ++ gUsSuffix))) ∧
    (∀ u : JStr, deriveSessionKey .perSender (some (telegramTag ++ u)) =
      telegramTag ++ u) ∧
    deriveSessionKey .perSender (some "telegram:@alice".toList) ≠
      deriveSessionKey .perSender (some "+15551234567".toList) := by
  refine ⟨deriveSessionKey_global, deriveSessionKey_missing, deriveSessionKey_empty,
    fun d hd => deriveSessionKey_waTag hd, fun d hd => deriveSessionKey_plus hd,
    fun d1 d2 h1 h2 hd1 hd2 => deriveSessionKey_group h1 h2 hd1 hd2,
    deriveSessionKey_telegram, by decide⟩

/-- Witness for C4: the digit-list cases applied to concrete senders
reproduce the spec scenarios (whatsapp:+1555 maps to +1555, the group JID
12345-678@g.us gets the group: key). -/
theorem C4_session_key_derivation_witness :
    deriveSessionKey .perSender (some "whatsapp:+1555".toList) = "+1555".toList ∧
    deriveSessionKey .perSender (some "12345-678@g.us".toList) =
      "group:12345-678@g.us".toList := by
  constructor
  · have h := C4_session_key_derivation.2.2.2.1 "1555".toList (by decide)
    exact h
  · have h := C4_session_key_derivation.2.2.2.2.2.1 "12345".toList "678".toList
      (by decide) (by decide) (by decide) (by decide)
    exact h

/-- Claim C5 (amended). Each polling iteration remembers the SID of the
newest inbound message it observed (the head of the newest-first sort) and
delivers messages oldest-first; but deduplication only skips a message whose
SID is exactly the remembered SID (pollKeep), so strictly older messages are
delivered again on later iterations; a throwing iteration leaves the
remembered SID unchanged, continues the loop, and is logged only when
verbose. -/
theorem C5_polling_loop :
    (∀ (last : Option JStr) (msgs : List ListedMessage) (m : ListedMessage)
      (rest : List ListedMessage),
      sortDesc (msgs.filter (fun x => x.direction = "inbound".toList)) = m :: rest →
      (pollOnce last msgs).2 = m.sid ∧
        ∀ x ∈ msgs, x.direction = "inbound".toList → msgTime x ≤ msgTime m) ∧
    (∀ (last : Option JStr) (msgs : List ListedMessage),
      (pollOnce last msgs).1.Pairwise (fun a b => msgTime a ≤ msgTime b)) ∧
    (∀ (last : Option JStr) (msgs : List ListedMessage) (m : ListedMessage),
      m ∈ (pollOnce last msgs).1 ↔
        m ∈ msgs ∧ m.direction = "inbound".toList ∧ pollKeep last m = true) ∧
    (∀ (v : Bool) (last : Option JStr) (e : JStr)
      (rest : List (Except JStr (List ListedMessage))),
      pollLoop v last ((.error e) :: rest) =
        ((pollLoop v last rest).1,
          (if v then [pollErrorLog e] else []) ++ (pollLoop v last rest).2)) :=
  ⟨pollOnce_newest, pollOnce_sorted, pollOnce_mem, fun _ _ _ _ => rfl⟩

/-- Witness for C5: on a concrete two-message inbox the remembered SID is the
newer message's SID B, and the poll loop under an error iteration continues
with no log when verbose is off. -/
theorem C5_polling_loop_witness :
    (pollOnce none
      [{ sid := some "A".toList, direction := "inbound".toList, dateCreated := some 1 },
       { sid := some "B".toList, direction := "inbound".toList, dateCreated := some 2 }]).2
      = some "B".toList ∧
    pollLoop false none [.error "boom".toList] = ([], []) := by
  constructor
  · have h := (C5_polling_loop.1 none
      [{ sid := some "A".toList, direction := "inbound".toList, dateCreated := some 1 },
       { sid := some "B".toList, direction := "inbound".toList, dateCreated := some 2 }]
      { sid := some "B".toList, direction := "inbound".toList, dateCreated := some 2 }
      [{ sid := some "A".toList, direction := "inbound".toList, dateCreated := some 1 }]
      (by decide)).1
    exact h
  · have h := C5_polling_loop.2.2.2 false none "boom".toList []
    simpa using h

/-- Counterexample for C5 as stated: after an iteration that remembered SID B
(the newest), a second iteration over the same window delivers the strictly
older message with SID A again instead of skipping every message
older-or-equal to the remembered one; and a throwing iteration emits no log
line when verbose is off. -/
theorem C5_counterexample :
    (pollOnce none
      [{ sid := some "A".toList, direction := "inbound".toList, dateCreated := some 1 },
       { sid := some "B".toList, direction := "inbound".toList, dateCreated := some 2 }]).2
      = some "B".toList ∧
    (pollOnce (some "B".toList)
      [{ sid := some "A".toList, direction := "inbound".toList, dateCreated := some 1 },
       { sid := some "B".toList, direction := "inbound".toList, dateCreated := some 2 }]).1
      = [{ sid := some "A".toList, direction := "inbound".toList, dateCreated := some 1 }] ∧
    msgTime { sid := some "A".toList, direction := "inbound".toList, dateCreated := some 1 }
      ≤ msgTime { sid := some "B".toList, direction := "inbound".toList, dateCreated := some 2 } ∧
    (pollLoop false none [.error "boom".toList]).2 = [] := by
  exact ⟨by decide, by decide, by decide, rfl⟩

/-- Claim C6 (amended). sendTyping is a no-op on wa-twilio and never throws
there; on wa-web, once the socket exists every presence failure is absorbed,
but an uninitialized provider throws "Provider not initialized"; on telegram,
an uninitialized provider throws likewise and an entity-resolution failure
propagates to the caller (there is no catch), while the SetTyping invocation
outcome is returned as-is. -/
theorem C6_send_typing :
    (∀ t : JStr, twilioSendTyping t = .ok ()) ∧
    (∀ p : Except JStr Unit, webSendTyping true p = .ok ()) ∧
    (∀ p : Except JStr Unit,
      webSendTyping false p = .error "Provider not initialized".toList) ∧
    (∀ (r : Except JStr Nat) (i : Except JStr Unit),
      telegramSendTyping false r i = .error "Provider not initialized".toList) ∧
    (∀ (e : JStr) (i : Except JStr Unit),
      telegramSendTyping true (.error e) i = .error e) ∧
    (∀ (ent : Nat) (i : Except JStr Unit),
      telegramSendTyping true (.ok ent) i = i) :=
  ⟨fun _ => rfl, fun p => by cases p <;> rfl, fun _ => rfl, fun _ _ => rfl,
    fun _ _ => rfl, fun _ _ => rfl⟩

/-- Counterexample for C6 as stated: sendTyping on an uninitialized telegram
or wa-web provider throws "Provider not initialized" instead of being
absorbed, and an initialized telegram sendTyping propagates an
entity-resolution failure. -/
theorem C6_counterexample :
    telegramSendTyping false (.ok 0) (.ok ()) =
      .error "Provider not initialized".toList ∧
    webSendTyping false (.ok ()) = .error "Provider not initialized".toList ∧
    telegramSendTyping true (.error "No Telegram entity found for @ghost".toList)
        (.ok ()) =
      .error "No Telegram entity found for @ghost".toList :=
  ⟨rfl, rfl, rfl⟩

/-- Claim C7 (amended). getMaxMediaSize: an unset variable yields the 2 GiB
default without warning; a variable set to the empty string is treated like
an unset one (default, no warning) because of the JS truthiness guard, even
though its integer parse is NaN; a nonempty string parsing to NaN or to a
non-positive number falls back to the default with a warning; a positive
megabyte count is multiplied by 1024*1024, clamped (with warning) to 2 GiB
when it exceeds it, and otherwise used exactly (no warning). -/
theorem getMaxMediaSize_some_eq (s : JStr) :
    getMaxMediaSize (some s) =
      (if s.isEmpty = true then (defaultMaxMediaBytes, false)
       else
         match parseIntJS s with
         | none => (defaultMaxMediaBytes, true)
         | some overrideMB =>
           if overrideMB ≤ 0 then (defaultMaxMediaBytes, true)
           else if overrideMB.toNat * 1024 * 1024 > defaultMaxMediaBytes then
             (defaultMaxMediaBytes, true)
           else (overrideMB.toNat * 1024 * 1024, false)) := rfl

theorem C7_max_media_size :
    getMaxMediaSize none = (defaultMaxMediaBytes, false) ∧
    getMaxMediaSize (some []) = (defaultMaxMediaBytes, false) ∧
    (∀ s : JStr, s ≠ [] → parseIntJS s = none →
      getMaxMediaSize (some s) = (defaultMaxMediaBytes, true)) ∧
    (∀ (s : JStr) (n : Int), s ≠ [] → parseIntJS s = some n → n ≤ 0 →
      getMaxMediaSize (some s) = (defaultMaxMediaBytes, true)) ∧
    (∀ (s : JStr) (n : Int), s ≠ [] → parseIntJS s = some n → 0 < n →
      n.toNat * 1024 * 1024 > defaultMaxMediaBytes →
      getMaxMediaSize (some s) = (defaultMaxMediaBytes, true)) ∧
    (∀ (s : JStr) (n : Int), s ≠ [] → parseIntJS s = some n → 0 < n →
      ¬(n.toNat * 1024 * 1024 > defaultMaxMediaBytes) →
      getMaxMediaSize (some s) = (n.toNat * 1024 * 1024, false)) := by
  refine ⟨rfl, rfl, ?_, ?_, ?_, ?_⟩
  · intro s hne hp
    rw [getMaxMediaSize_some_eq, if_neg (by simp [hne]), hp]
  · intro s n hne hp hn
    rw [getMaxMediaSize_some_eq, if_neg (by simp [hne]), hp]
    simp only [if_pos hn]
  · intro s n hne hp hn hbig
    rw [getMaxMediaSize_some_eq, if_neg (by simp [hne]), hp]
    show (if n ≤ 0 then (defaultMaxMediaBytes, true)
      else if n.toNat * 1024 * 1024 > defaultMaxMediaBytes then
        (defaultMaxMediaBytes, true)
      else (n.toNat * 1024 * 1024, false)) = (defaultMaxMediaBytes, true)
    rw [if_neg (by omega), if_pos hbig]
  · intro s n hne hp hn hsmall
    rw [getMaxMediaSize_some_eq, if_neg (by simp [hne]), hp]
    show (if n ≤ 0 then (defaultMaxMediaBytes, true)
      else if n.toNat * 1024 * 1024 > defaultMaxMediaBytes then
        (defaultMaxMediaBytes, true)
      else (n.toNat * 1024 * 1024, false)) = (n.toNat * 1024 * 1024, false)
    rw [if_neg (by omega), if_neg hsmall]

/-- Witness for C7: the documented concrete cases, applied through the
theorem itself: "abc" is NaN, "0" is non-positive, "4096" is clamped, "500"
gives 500 MiB exactly. -/
theorem C7_max_media_size_witness :
    getMaxMediaSize (some "abc".toList) = (defaultMaxMediaBytes, true) ∧
    getMaxMediaSize (some "0".toList) = (defaultMaxMediaBytes, true) ∧
    getMaxMediaSize (some "4096".toList) = (defaultMaxMediaBytes, true) ∧
    getMaxMediaSize (some "500".toList) = (524288000, false) := by
  refine ⟨C7_max_media_size.2.2.1 "abc".toList (by decide) (by decide),
    C7_max_media_size.2.2.2.1 "0".toList 0 (by decide) (by decide) (by decide),
    C7_max_media_size.2.2.2.2.1 "4096".toList 4096 (by decide) (by decide)
      (by decide) (by decide),
    ?_⟩
  have h := C7_max_media_size.2.2.2.2.2 "500".toList 500 (by decide) (by decide)
    (by decide) (by decide)
  simpa using h

/-- Counterexample for C7 as stated: TELEGRAM_MAX_MEDIA_MB set to the empty
string is a set value whose integer parse is NaN, yet the code issues no
warning (it takes the falsy-guard path and silently returns the default). -/
theorem C7_counterexample :
    parseIntJS "".toList = none ∧
    getMaxMediaSize (some "".toList) = (defaultMaxMediaBytes, false) :=
  ⟨rfl, rfl⟩

/-- Claim C8. Identifier normalisation is idempotent: normalizeE164 applied
twice equals normalizeE164 applied once for every input string, and
normalizeAllowFromEntry applied twice equals it applied once for every input
string and every provider (telegram, web, twilio). -/
theorem C8_normalization_idempotent :
    (∀ i : JStr, normalizeE164 (normalizeE164 i) = normalizeE164 i) ∧
    (∀ (i : JStr) (p : AllowFromProvider),
      normalizeAllowFromEntry (normalizeAllowFromEntry i p) p =
        normalizeAllowFromEntry i p) :=
  ⟨normalizeE164_idem, normalizeAllowFromEntry_idem⟩

/-- Claim C9 (amended). The canonical-identifier round trip holds exactly for
the inputs whose canonical form is a plus sign followed by a nonempty run of
digits: for such e, converting to a WhatsApp JID and back recovers
normalizeE164 e (the counterexample "1+2", whose canonical form keeps an
interior plus, breaks the unrestricted claim); and in the other direction,
for every JID <digits>@s.whatsapp.net, jidToE164 followed by toWhatsappJid
is the identity. -/
theorem C9_jid_roundtrip :
    (∀ (e : JStr) (lk : JStr → Option JStr),
      (normalizeE164 e).tail ≠ [] →
      (∀ c ∈ (normalizeE164 e).tail, c.isDigit = true) →
      jidToE164 lk (toWhatsappJid e) = some (normalizeE164 e)) ∧
    (∀ (d : JStr) (lk : JStr → Option JStr), d ≠ [] →
      (∀ c ∈ d, c.isDigit = true) →
      jidToE164 lk (d ++ waSuffix) = some ('+' :: d) ∧
        toWhatsappJid ('+' :: d) = d ++ waSuffix) :=
  ⟨fun _ lk h1 h2 => jid_roundtrip_left lk h1 h2,
    fun _ lk h1 h2 => jid_roundtrip_right h1 h2 lk⟩

/-- Witness for C9: the round trip at the concrete number +15551234567 and
the concrete JID 1234@s.whatsapp.net. -/
theorem C9_jid_roundtrip_witness :
    jidToE164 (fun _ => none) (toWhatsappJid "+15551234567".toList) =
      some (normalizeE164 "+15551234567".toList) ∧
    jidToE164 (fun _ => none) ("1234".toList ++ waSuffix) =
      some "+1234".toList := by
  constructor
  · exact C9_jid_roundtrip.1 "+15551234567".toList (fun _ => none)
      (by decide) (by decide)
  · exact (C9_jid_roundtrip.2 "1234".toList (fun _ => none)
      (by decide) (by decide)).1

/-- Counterexample for C9 as stated: the input "1+2" contains a digit, but
its canonical form "+1+2" keeps an interior plus sign, so the JID round trip
returns "+12" and does not recover normalizeE164 "1+2". -/
theorem C9_counterexample :
    ("1+2".toList.any Char.isDigit) = true ∧
    jidToE164 (fun _ => none) (toWhatsappJid "1+2".toList) = some "+12".toList ∧
    normalizeE164 "1+2".toList = "+1+2".toList ∧
    some "+12".toList ≠ some "+1+2".toList := by
  refine ⟨by decide, by decide, by decide, by decide⟩

/-- Claim C10. Precondition surface of the provider contract: send and
startListening throw "Provider not initialized" (an exception, not a failed
SendResult) when called before initialize on all three providers;
startListening also throws when no handler was registered; wa-web and
wa-twilio throw "Already listening" when already listening, whereas the
telegram provider performs no already-listening check and succeeds again. -/
theorem C10_precondition_checks :
    (∀ (cfg : TwilioConfig) (bk : TwilioMessageParams → Except JStr JStr)
      (ms : Option JStr) (t b : JStr) (media : List ProviderMedia),
      (twilioSend false cfg bk ms t b media).1 =
        .error "Provider not initialized".toList) ∧
    (∀ bk : Except JStr (JStr × JStr),
      webSend false bk = .error "Provider not initialized".toList) ∧
    (∀ (env : TgEnv) (t b : JStr) (media : List ProviderMedia),
      (telegramSend false env t b media).1 =
        .error "Provider not initialized".toList) ∧
    (∀ hh l : Bool, twilioStartListening false hh l =
      .error "Provider not initialized".toList) ∧
    (∀ l : Bool, twilioStartListening true false l =
      .error "Message handler not set. Call onMessage() first.".toList) ∧
    twilioStartListening true true true = .error "Already listening".toList ∧
    twilioStartListening true true false = .ok () ∧
    (∀ hh l : Bool, webStartListening false hh l =
      .error "Provider not initialized".toList) ∧
    (∀ l : Bool, webStartListening true false l =
      .error "Message handler not set. Call onMessage() first.".toList) ∧
    webStartListening true true true = .error "Already listening".toList ∧
    webStartListening true true false = .ok () ∧
    (∀ hh l : Bool, telegramStartListening false hh l =
      .error "Provider not initialized".toList) ∧
    (∀ l : Bool, telegramStartListening true false l =
      .error "No message handler registered. Call onMessage() first.".toList) ∧
    (∀ l : Bool, telegramStartListening true true l = .ok ()) :=
  ⟨fun _ _ _ _ _ _ => rfl, fun _ => rfl, fun _ _ _ _ => rfl,
    fun _ _ => rfl, fun _ => rfl, rfl, rfl,
    fun _ _ => rfl, fun _ => rfl, rfl, rfl,
    fun _ _ => rfl, fun _ => rfl, fun _ => rfl⟩
